import Mathlib

/-!
Verification development for the efb-wechat-mprss feed-assembly pipeline.

The Python sources are shallowly embedded:
* `src/backend/db_reader.py` — `get_messages_for_mp`, `parse_message_row`
* `src/mprss/rss_generator.py` — `generate_rss_feed` (item construction)
* `src/mprss/opml_generator.py` — `generate_opml`, `_add_mp_outline`
* `src/mprss/app.py` — `get_cached_mps` (the process-wide account cache)

Python strings are Lean `String`; Python `None`-able values are `Option`;
a raised exception is `Except.error ()`; a SQLite result set is a `List Row`.
-/

set_option autoImplicit false

namespace MpRss

/-! ### Python string primitives

`pyReplace s pat rep` models Python `s.replace(pat, rep)`: every
non-overlapping occurrence of `pat`, scanning left to right, is replaced by
`rep`.  The recursion is fuelled by the length of the string, which bounds
the number of scan steps. -/

def replFuel (pat rep : List Char) : Nat → List Char → List Char
  | 0, l => l
  | _ + 1, [] => []
  | n + 1, c :: cs =>
    if pat.isPrefixOf (c :: cs) then
      rep ++ replFuel pat rep n (List.drop (pat.length - 1) cs)
    else
      c :: replFuel pat rep n cs

def pyReplace (s pat rep : String) : String :=
  String.mk (replFuel pat.toList rep.toList s.toList.length s.toList)

/-- Python `pat in s` (substring containment). -/
def hasSubL (pat : List Char) : List Char → Bool
  | [] => pat.isEmpty
  | c :: cs => pat.isPrefixOf (c :: cs) || hasSubL pat cs

def hasSubstr (s pat : String) : Bool :=
  hasSubL pat.toList s.toList

/-- Python `s.startswith(p)`. -/
def strStarts (s p : String) : Bool :=
  p.toList.isPrefixOf s.toList

/-! ### Values stored in the message log

`PyTime` models the dynamically typed value held by the `time` column of
`msglog` (and hence by the `pub_date` entry of a message dict, which
`parse_message_row` copies from it verbatim): an ISO string, a datetime
(identified by its POSIX timestamp), a number, or SQL NULL / Python None. -/

inductive PyTime where
  | pstr (s : String)
  | pdt (t : Int)
  | pint (n : Int)
  | pnone
deriving Repr, DecidableEq

/-- Python truthiness of a `PyTime` value (`if pub_date:`). -/
def pyTimeTruthy : PyTime → Bool
  | .pstr s => s != ""
  | .pdt _ => true
  | .pint n => n != 0
  | .pnone => false

/-- The `LinkAttribute` object found under the `"attributes"` key of a
decoded pickle payload.  `truthy` is the Python truthiness of the object
(`if not attributes: return None`); each field models
`getattr(attributes, field, None)`. -/
structure LinkAttr where
  truthy : Bool
  title : Option String
  description : Option String
  url : Option String
  image : Option String
deriving Repr, DecidableEq

/-- What `pickle.loads` produced when it succeeded:
either a dict (on which `data.get("attributes")` works, yielding the value
under `"attributes"` or `None`), or some other object with no `.get`
method (a pickled `None`, list, scalar, ...), on which
`data.get("attributes")` raises `AttributeError`. -/
inductive PickleVal where
  | dict (attributes : Option LinkAttr)
  | nonDict
deriving Repr, DecidableEq

/-- The raw `pickle` column of a row: falsy (NULL or empty bytes), bytes
that make `pickle.loads` raise, or bytes that decode to a `PickleVal`. -/
inductive PickleField where
  | empty
  | invalid
  | valid (v : PickleVal)
deriving Repr, DecidableEq

/-- One row of the `msglog` table (the columns the reader selects or
filters on). -/
structure Row where
  slave_origin_uid : String
  msg_type : String
  pickle_data : PickleField
  time : PyTime
deriving Repr, DecidableEq

/-- A message dict as built by `parse_message_row` and consumed by
`generate_rss_feed`.  `Option` marks presence of the dict key: `none`
means the key is absent (so `msg.get(k, d)` falls back to `d`). -/
structure Msg where
  title : Option String
  description : Option String
  url : Option String
  image : Option String
  pub_date : Option PyTime
deriving Repr, DecidableEq

/-! ### db_reader.parse_message_row -/

/-- Model of `parse_message_row` (src/backend/db_reader.py, lines 68-101).
`Except.error ()` models an uncaught exception: the `try` block only
covers `pickle.loads`, so `data.get("attributes")` on a non-dict raises
an `AttributeError` that propagates to the caller. -/
def parse_message_row (row : Row) : Except Unit (Option Msg) :=
  match row.pickle_data with
  | .empty => .ok none
  | .invalid => .ok none
  | .valid .nonDict => .error ()
  | .valid (.dict attributes) =>
    match attributes with
    | none => .ok none
    | some a =>
      if a.truthy then
        .ok (some
          { title := some (a.title.getD "")
            description := some (a.description.getD "")
            url := some (a.url.getD "")
            image := some (a.image.getD "")
            pub_date := some row.time })
      else
        .ok none

/-! ### db_reader.get_messages_for_mp

The SQL query
`SELECT ... WHERE slave_origin_uid = ? AND msg_type = 'Link'
 ORDER BY time DESC LIMIT ?`
is modelled as: filter the table, sort by `time` descending (SQLite's
cross-type value order: NULL < numeric < text, numerics numerically,
text lexicographically; ties keep table order), take `limit` rows. -/

def slaveOriginUid (puid : String) : String :=
  "blueset.wechat " ++ puid

def linkRowsFor (db : List Row) (puid : String) : List Row :=
  db.filter (fun r =>
    r.slave_origin_uid == slaveOriginUid puid && r.msg_type == "Link")

/-- SQLite rank of a stored `time` value: NULL sorts before numerics,
numerics before text. -/
def sqlRank : PyTime → Nat
  | .pnone => 0
  | .pint _ => 1
  | .pdt _ => 1
  | .pstr _ => 2

/-- Strict "greater" in SQLite value order, used for `ORDER BY time DESC`. -/
def sqlGt (a b : PyTime) : Bool :=
  if sqlRank b < sqlRank a then true
  else if sqlRank a < sqlRank b then false
  else
    match a, b with
    | .pint m, .pint n => n < m
    | .pint m, .pdt n => n < m
    | .pdt m, .pint n => n < m
    | .pdt m, .pdt n => n < m
    | .pstr s, .pstr t => decide (t < s)
    | _, _ => false

/-- Insert a row into a descending-sorted list, after any row that does not
compare strictly smaller (stable insertion). -/
def insertRowDesc (r : Row) : List Row → List Row
  | [] => [r]
  | x :: xs =>
    if sqlGt r.time x.time then r :: x :: xs
    else x :: insertRowDesc r xs

/-- Stable sort by `time` descending. -/
def sortRowsDesc (l : List Row) : List Row :=
  l.foldl (fun acc r => insertRowDesc r acc) []

/-- The raw row window the query returns: account's Link rows, newest
first, capped at `limit` before any decoding or filtering. -/
def queryRows (db : List Row) (puid : String) (limit : Nat) : List Row :=
  (sortRowsDesc (linkRowsFor db puid)).take limit

/-- Model of `url.replace("http://", "https://")` (src/backend/db_reader.py,
line 56). -/
def normalizeUrl (u : String) : String :=
  pyReplace u "http://" "https://"

/-- The per-row loop of `get_messages_for_mp` (lines 50-65): parse, drop
messages with a falsy url, allow-list on the normalized url, first-seen
dedup on the normalized url.  `seen` models the `seen_urls` set. -/
def collectMessages : List Row → List String → Except Unit (List Msg)
  | [], _ => .ok []
  | r :: rest, seen =>
    match parse_message_row r with
    | .error e => .error e
    | .ok none => collectMessages rest seen
    | .ok (some m) =>
      if m.url.getD "" == "" then
        collectMessages rest seen
      else
        let url := normalizeUrl (m.url.getD "")
        if !strStarts url "https://mp.weixin.qq.com" then
          collectMessages rest seen
        else if seen.contains url then
          collectMessages rest seen
        else
          match collectMessages rest (url :: seen) with
          | .error e => .error e
          | .ok tail => .ok (m :: tail)

/-- Model of `get_messages_for_mp` (src/backend/db_reader.py, lines 12-65), with
the database table passed as a list of rows. -/
def get_messages_for_mp (db : List Row) (puid : String) (limit : Nat) :
    Except Unit (List Msg) :=
  collectMessages (queryRows db puid limit) []


/-! ### rss_generator.generate_rss_feed

The XML tree is abstracted to the data placed in it.  RFC-822 date
formatting (`email.utils.formatdate`) is kept symbolic: a `pubDate`
element's content is either the formatted value of a concrete POSIX
timestamp, or the formatted render ("now") time.  `datetime.fromisoformat`
is kept as a parameter `isoParse : String → Option Int` mapping an ISO
string to the POSIX timestamp of the parsed datetime, `none` when the
parse raises. -/

inductive PubDateVal where
  | fromTimestamp (t : Int)
  | renderTime
deriving Repr, DecidableEq

/-- The `pubDate` element of one item (lines 87-99 of
src/mprss/rss_generator.py): absent when `msg.get("pub_date")` is missing
or falsy; for a string, `fromisoformat` is applied to the string with
every `"Z"` replaced by `"+00:00"`, falling back to the render time when
it raises; a datetime is used directly; any other truthy value falls into
the `datetime.now()` branch. -/
def renderPubDate (isoParse : String → Option Int) (pd : Option PyTime) :
    Option PubDateVal :=
  match pd with
  | none => none
  | some v =>
    if pyTimeTruthy v then
      some (match v with
        | .pstr s =>
          match isoParse (pyReplace s "Z" "+00:00") with
          | some t => .fromTimestamp t
          | none => .renderTime
        | .pdt t => .fromTimestamp t
        | _ => .renderTime)
    else
      none

/-- The `description` element content (lines 69-80): the image url, when
truthy, is embedded before the body — as a clickable label for
telegra.ph urls, as an `img` tag otherwise. -/
def renderDescription (description image_url : String) : String :=
  if image_url != "" then
    if hasSubstr image_url "telegra.ph" then
      "<a href=\"" ++ image_url ++ "\">[Telegraph]</a><br/>" ++ description
    else
      "<img src=\"" ++ image_url ++ "\" /><br/>" ++ description
  else
    description

/-- One rendered `item` element. -/
structure RssItem where
  title : String
  link : String
  description : String
  guid : String
  guidIsPermaLink : Bool
  pubDate : Option PubDateVal
deriving Repr, DecidableEq

/-- The per-message item construction (lines 60-99). -/
def renderItem (isoParse : String → Option Int) (m : Msg) : RssItem :=
  { title := m.title.getD "Untitled"
    link := m.url.getD ""
    description := renderDescription (m.description.getD "") (m.image.getD "")
    guid := m.url.getD ""
    guidIsPermaLink := true
    pubDate := renderPubDate isoParse m.pub_date }

/-- The rendered channel (data content of the XML produced by
`generate_rss_feed`, src/mprss/rss_generator.py lines 12-104;
`lastBuildDate` is always the formatted render time and is omitted). -/
structure RssChannel where
  title : String
  link : String
  description : String
  language : String
  atomSelfLink : Option String
  items : List RssItem
deriving Repr, DecidableEq

def generate_rss_feed (isoParse : String → Option Int)
    (mp_name mp_signature : String) (messages : List Msg)
    (feed_url : String) : RssChannel :=
  { title := mp_name
    link := if feed_url != "" then feed_url else "https://mp.weixin.qq.com"
    description :=
      if mp_signature != "" then mp_signature
      else mp_name ++ " - WeChat Public Account"
    language := "zh-CN"
    atomSelfLink := if feed_url != "" then some feed_url else none
    items := messages.map (renderItem isoParse) }

/-! ### opml_generator.generate_opml -/

/-- An account dict (`puid`, `name`, `signature`), `Option` marking key
presence as for `Msg`. -/
structure Mp where
  puid : Option String
  name : Option String
  signature : Option String
deriving Repr, DecidableEq

/-- One `outline` element of type rss. -/
structure MpOutline where
  text : String
  title : String
  description : String
  xmlUrl : String
  htmlUrl : String
deriving Repr, DecidableEq

/-- Model of `_add_mp_outline` (src/mprss/opml_generator.py, lines 75-89). -/
def addMpOutline (mp : Mp) (base_url : String) : MpOutline :=
  { text := mp.name.getD "Unknown"
    title := mp.name.getD "Unknown"
    description := mp.signature.getD ""
    xmlUrl := base_url ++ "/api/rss/" ++ mp.puid.getD ""
    htmlUrl := "https://mp.weixin.qq.com" }

/-- Python `groups.get(puid, "All")` with the dict as an association
list (keys unique). -/
def dictGetD (g : List (String × String)) (k dflt : String) : String :=
  match g.find? (fun p => p.1 == k) with
  | some p => p.2
  | none => dflt

/-- The group label assigned to an account (line 49). -/
def tagOf (g : List (String × String)) (mp : Mp) : String :=
  dictGetD g (mp.puid.getD "") "All"

/-- Append `mp` to the bucket of `tag`, creating the bucket at the end
when absent — the behaviour of `defaultdict(list)` under Python's
insertion-ordered dict iteration. -/
def addToBuckets (bs : List (String × List Mp)) (tag : String) (mp : Mp) :
    List (String × List Mp) :=
  match bs with
  | [] => [(tag, [mp])]
  | (t, l) :: rest =>
    if t == tag then (t, l ++ [mp]) :: rest
    else (t, l) :: addToBuckets rest tag mp

/-- The `tag_to_mps` mapping after the bucketing loop (lines 46-50). -/
def buildBuckets (g : List (String × String)) (mps : List Mp) :
    List (String × List Mp) :=
  mps.foldl (fun bs mp => addToBuckets bs (tagOf g mp) mp) []

/-- The `tag_to_mps[tag]` lookup. -/
def bucketGet (bs : List (String × List Mp)) (t : String) : List Mp :=
  match bs.find? (fun p => p.1 == t) with
  | some p => p.2
  | none => []

/-- The body of the generated OPML document: either a flat sequence of
account outlines, or a sequence of labelled group outlines each holding
account outlines. -/
inductive OpmlBody where
  | flat (outlines : List MpOutline)
  | grouped (groupsOut : List (String × List MpOutline))
deriving Repr, DecidableEq

/-- Model of `generate_opml` (src/mprss/opml_generator.py, lines 12-72), reduced to
the body structure.  `if groups:` is Python truthiness: `None` and the
empty dict both select the flat branch. -/
def generate_opml (mps : List Mp) (base_url : String)
    (groups : Option (List (String × String))) : OpmlBody :=
  match groups with
  | some (p :: ps) =>
    let g := p :: ps
    let buckets := buildBuckets g mps
    let keys := buckets.map Prod.fst
    let tag_order :=
      keys.filter (fun t => t != "All") ++
        (if keys.contains "All" then ["All"] else [])
    .grouped (tag_order.map (fun t =>
      (t, (bucketGet buckets t).map (fun mp => addMpOutline mp base_url))))
  | _ => .flat (mps.map (fun mp => addMpOutline mp base_url))

/-! ### app.get_cached_mps

`get_cached_mps` (src/mprss/app.py, lines 42-52) as a state transition on
the module-global `_mp_cache`.  The outcome of
`get_mps_with_puid(...)` — an external loader — is passed in as
`load : Except Unit (List Mp)`, `.error ()` when the call raises.  The
result pairs the cache after the call with the returned value (or the
propagated exception). -/

def hiddenMpNames : List String := ["微信支付", "微信收款助手"]

/-- The list comprehension
`[mp for mp in all_mps if mp["name"] not in HIDDEN_MP_NAMES]`:
`mp["name"]` on a dict without the key raises `KeyError`. -/
def filterHidden : List Mp → Except Unit (List Mp)
  | [] => .ok []
  | mp :: rest =>
    match mp.name with
    | none => .error ()
    | some n =>
      match filterHidden rest with
      | .error e => .error e
      | .ok l => .ok (if hiddenMpNames.contains n then l else mp :: l)

def get_cached_mps (cache : Option (List Mp)) (force_reload : Bool)
    (load : Except Unit (List Mp)) :
    Option (List Mp) × Except Unit (List Mp) :=
  if cache.isNone || force_reload then
    match load with
    | .error e => (cache, .error e)
    | .ok all_mps =>
      match filterHidden all_mps with
      | .error e => (cache, .error e)
      | .ok filtered => (some filtered, .ok filtered)
  else
    (cache, .ok (cache.getD []))


/-! ### Derived notions used in the statements -/

/-- The normalized url of a message, as computed at line 56 of
src/backend/db_reader.py. -/
def msgNormUrl (m : Msg) : String :=
  normalizeUrl (m.url.getD "")

/-- Modelled from the spec: "group iteration order is otherwise the order
labels were first encountered" — the deduplicated label sequence in order
of first occurrence, to be compared with the key order `generate_opml`
actually produces. -/
def firstEncounterLabels (l : List String) : List String :=
  l.foldl (fun acc t => if t ∈ acc then acc else acc ++ [t]) []

/-! ### Concrete fixtures -/

/-- A well-formed `LinkAttribute` payload. -/
def mkAttr (title url : Option String) : LinkAttr :=
  { truthy := true, title := title, description := some "body",
    url := url, image := some "" }

/-- A Link row for account `puid` whose pickle decodes to
`{"attributes": mkAttr title url}`, stored at time `t`. -/
def mkLinkRow (puid : String) (title url : Option String) (t : Int) : Row :=
  { slave_origin_uid := slaveOriginUid puid, msg_type := "Link",
    pickle_data := .valid (.dict (some (mkAttr title url))),
    time := .pint t }

/-- The message dict `parse_message_row` produces from `mkLinkRow`. -/
def mkParsedMsg (title url : String) (t : Int) : Msg :=
  { title := some title, description := some "body", url := some url,
    image := some "", pub_date := some (.pint t) }

/-- An iso parser that fails on every input. -/
def isoNone : String → Option Int := fun _ => none

def c1XDb : List Row :=
  [mkLinkRow "p" (some "older") (some "https://x.com/a") 1,
   mkLinkRow "p" (some "newer") (some "http://x.com/a") 2]

def c1MpDb : List Row :=
  [mkLinkRow "p" (some "older") (some "https://mp.weixin.qq.com/a") 1,
   mkLinkRow "p" (some "newer") (some "http://mp.weixin.qq.com/a") 2]

def c1NewerMsg : Msg := mkParsedMsg "newer" "http://mp.weixin.qq.com/a" 2

def c2Db : List Row :=
  [mkLinkRow "p" (some "Hi") (some "http://mp.weixin.qq.com/s/x") 1]

def c2Msg : Msg := mkParsedMsg "Hi" "http://mp.weixin.qq.com/s/x" 1

def c3Db : List Row :=
  [mkLinkRow "p" (some "T1") (some "https://mp.weixin.qq.com/s/x") 1,
   mkLinkRow "p" (some "T2") (some "https://mp.weixin.qq.com/s/x") 2,
   mkLinkRow "p" (some "T3") (some "https://mp.weixin.qq.com/s/x") 3,
   mkLinkRow "p" (some "T4") (some "https://mp.weixin.qq.com/s/x") 4,
   mkLinkRow "p" (some "T5") (some "https://mp.weixin.qq.com/s/x") 5]

def c3TopMsg : Msg := mkParsedMsg "T5" "https://mp.weixin.qq.com/s/x" 5

/-- A Link row whose pickle decodes to an object with no `.get` method
(for instance the pickle of `None`). -/
def c4BadRow : Row :=
  { slave_origin_uid := slaveOriginUid "p", msg_type := "Link",
    pickle_data := .valid .nonDict, time := .pint 3 }

def c4GoodRow : Row := mkLinkRow "p" (some "good") (some "https://mp.weixin.qq.com/g") 1

def c4ErrDb : List Row := [c4GoodRow, c4BadRow]

def c4EmptyRow : Row :=
  { slave_origin_uid := slaveOriginUid "p", msg_type := "Link",
    pickle_data := .empty, time := .pint 4 }

def c4InvalidRow : Row :=
  { slave_origin_uid := slaveOriginUid "p", msg_type := "Link",
    pickle_data := .invalid, time := .pint 5 }

def c4NoAttrRow : Row :=
  { slave_origin_uid := slaveOriginUid "p", msg_type := "Link",
    pickle_data := .valid (.dict none), time := .pint 6 }

def c4FalsyAttrRow : Row :=
  { slave_origin_uid := slaveOriginUid "p", msg_type := "Link",
    pickle_data := .valid (.dict (some
      { truthy := false, title := none, description := none,
        url := none, image := none })), time := .pint 7 }

def c4MixDb : List Row :=
  [c4GoodRow, c4EmptyRow, c4InvalidRow, c4NoAttrRow, c4FalsyAttrRow]

def c4GoodMsg : Msg := mkParsedMsg "good" "https://mp.weixin.qq.com/g" 1

def c5Account : Mp := { puid := some "ab12", name := some "Test Feed", signature := some "desc" }

def c6NoDateMsg : Msg :=
  { title := some "t", description := some "", url := some "u",
    image := some "", pub_date := none }

def c6ZuluMsg : Msg :=
  { title := some "Hi", description := some "",
    url := some "https://mp.weixin.qq.com/s/x", image := some "",
    pub_date := some (.pstr "2024-01-01T00:00:00Z") }

/-- An iso parser defined at exactly the Z-normalized form of
`c6ZuluMsg`'s timestamp (1704067200 is 2024-01-01T00:00:00 UTC). -/
def isoJan2024 : String → Option Int := fun s =>
  if s == "2024-01-01T00:00:00+00:00" then some 1704067200 else none

def c7Row : Row := mkLinkRow "p" none (some "https://mp.weixin.qq.com/s/y") 1

def c7Msg : Msg := mkParsedMsg "" "https://mp.weixin.qq.com/s/y" 1

def c8Db : List Row :=
  [mkLinkRow "p" (some "nourl") (some "") 1,
   mkLinkRow "p" (some "ext") (some "https://notmp.example.com/post") 2]

def c9Mp1 : Mp := { puid := some "p1", name := some "Alpha", signature := some "s1" }
def c9Mp2 : Mp := { puid := some "p2", name := some "Beta", signature := some "s2" }
def c9Mp3 : Mp := { puid := some "p3", name := some "Gamma", signature := some "s3" }

def c9Groups : List (String × String) := [("p1", "Tech")]

def c9Expected : OpmlBody :=
  .grouped
    [("Tech", [addMpOutline c9Mp1 "http://b"]),
     ("All", [addMpOutline c9Mp2 "http://b", addMpOutline c9Mp3 "http://b"])]

def c10Row : Row := mkLinkRow "q" (some "T") (some "u") 9

def c10Msg : Msg := mkParsedMsg "T" "u" 9


/-! ### Helper lemmas about the message query -/

theorem collect_length (rows : List Row) :
    ∀ (seen : List String) (msgs : List Msg),
      collectMessages rows seen = Except.ok msgs → msgs.length ≤ rows.length := by
  induction rows with
  | nil =>
    intro seen msgs h
    simp only [collectMessages, Except.ok.injEq] at h
    subst h
    simp
  | cons r rest ih =>
    intro seen msgs h
    simp only [collectMessages] at h
    split at h
    · exact absurd h (by simp)
    · exact Nat.le_succ_of_le (ih _ _ h)
    · split at h
      · exact Nat.le_succ_of_le (ih _ _ h)
      · split at h
        · exact Nat.le_succ_of_le (ih _ _ h)
        · split at h
          · exact Nat.le_succ_of_le (ih _ _ h)
          · split at h
            · exact absurd h (by simp)
            · rename_i tail heq2
              simp only [Except.ok.injEq] at h
              subst h
              simpa using ih _ _ heq2

theorem collect_mem (rows : List Row) :
    ∀ (seen : List String) (msgs : List Msg),
      collectMessages rows seen = Except.ok msgs →
      (∀ m ∈ msgs, m.url.getD "" ≠ "" ∧
          strStarts (msgNormUrl m) "https://mp.weixin.qq.com" = true ∧
          msgNormUrl m ∉ seen) ∧
        (msgs.map msgNormUrl).Nodup := by
  induction rows with
  | nil =>
    intro seen msgs h
    simp only [collectMessages, Except.ok.injEq] at h
    subst h
    simp
  | cons r rest ih =>
    intro seen msgs h
    simp only [collectMessages] at h
    split at h
    · exact absurd h (by simp)
    · exact ih _ _ h
    · rename_i m heq
      split at h
      · exact ih _ _ h
      · rename_i hu
        split at h
        · exact ih _ _ h
        · rename_i hal
          split at h
          · exact ih _ _ h
          · rename_i hseen
            split at h
            · exact absurd h (by simp)
            · rename_i tail heq2
              simp only [Except.ok.injEq] at h
              subst h
              obtain ⟨ihmem, ihnd⟩ := ih _ _ heq2
              constructor
              · intro x hx
                rcases List.mem_cons.mp hx with rfl | hx'
                · refine ⟨by simpa using hu, by simpa using hal, ?_⟩
                  simpa using hseen
                · obtain ⟨h1, h2, h3⟩ := ihmem x hx'
                  exact ⟨h1, h2, fun hmem => h3 (List.mem_cons_of_mem _ hmem)⟩
              · refine List.nodup_cons.mpr ⟨?_, ihnd⟩
                intro hmem
                obtain ⟨x, hx, hxe⟩ := List.mem_map.mp hmem
                obtain ⟨_, _, h3⟩ := ihmem x hx
                exact h3 (hxe ▸ List.mem_cons_self _ _)


/-! ### Helper lemmas about the OPML bucketing -/

theorem addToBuckets_keys (bs : List (String × List Mp)) (tag : String) (mp : Mp) :
    (addToBuckets bs tag mp).map Prod.fst =
      if tag ∈ bs.map Prod.fst then bs.map Prod.fst
      else bs.map Prod.fst ++ [tag] := by
  induction bs with
  | nil => simp [addToBuckets]
  | cons hd tl ih =>
    obtain ⟨t, l⟩ := hd
    by_cases h : t = tag
    · subst h
      simp [addToBuckets]
    · have hba : (t == tag) = false := by simpa using h
      by_cases h2 : tag ∈ tl.map Prod.fst
      · simp [addToBuckets, hba, ih, h2, Ne.symm h]
      · simp [addToBuckets, hba, ih, h2, Ne.symm h]

theorem bucketGet_nil (t : String) : bucketGet [] t = [] := rfl

theorem bucketGet_cons (t' : String) (l : List Mp) (tl : List (String × List Mp))
    (t : String) :
    bucketGet ((t', l) :: tl) t = if t' = t then l else bucketGet tl t := by
  by_cases h : t' = t
  · simp [bucketGet, h]
  · simp [bucketGet, h]

theorem addToBuckets_get (bs : List (String × List Mp)) (tag : String) (mp : Mp)
    (t : String) :
    bucketGet (addToBuckets bs tag mp) t =
      if t = tag then bucketGet bs t ++ [mp] else bucketGet bs t := by
  induction bs with
  | nil =>
    have e : addToBuckets [] tag mp = [(tag, [mp])] := rfl
    rw [e, bucketGet_cons, bucketGet_nil]
    by_cases h : tag = t
    · simp [h]
    · simp [h, Ne.symm h]
  | cons hd tl ih =>
    obtain ⟨t', l⟩ := hd
    by_cases h1 : t' = tag
    · subst h1
      have e : addToBuckets ((t', l) :: tl) t' mp = (t', l ++ [mp]) :: tl := by
        simp [addToBuckets]
      rw [e, bucketGet_cons, bucketGet_cons]
      by_cases h2 : t' = t
      · subst h2
        simp
      · simp [h2, Ne.symm h2]
    · have hba : (t' == tag) = false := by simpa using h1
      have e : addToBuckets ((t', l) :: tl) tag mp =
          (t', l) :: addToBuckets tl tag mp := by
        simp [addToBuckets, hba]
      rw [e, bucketGet_cons, ih, bucketGet_cons]
      by_cases h2 : t' = t
      · subst h2
        simp [h1]
      · simp [h2]

theorem bucketFold_keys (g : List (String × String)) (mps : List Mp) :
    ∀ (bs : List (String × List Mp)),
      ((mps.foldl (fun bs mp => addToBuckets bs (tagOf g mp) mp) bs).map Prod.fst) =
        (mps.map (tagOf g)).foldl
          (fun acc t => if t ∈ acc then acc else acc ++ [t]) (bs.map Prod.fst) := by
  induction mps with
  | nil => intro bs; simp
  | cons mp rest ih =>
    intro bs
    simp only [List.foldl_cons, List.map_cons]
    rw [ih, addToBuckets_keys]

theorem buildBuckets_keys (g : List (String × String)) (mps : List Mp) :
    (buildBuckets g mps).map Prod.fst = firstEncounterLabels (mps.map (tagOf g)) := by
  simpa using bucketFold_keys g mps []

theorem bucketFold_get (g : List (String × String)) (mps : List Mp) (t : String) :
    ∀ (bs : List (String × List Mp)),
      bucketGet (mps.foldl (fun bs mp => addToBuckets bs (tagOf g mp) mp) bs) t =
        bucketGet bs t ++ mps.filter (fun mp => tagOf g mp == t) := by
  induction mps with
  | nil => intro bs; simp
  | cons mp rest ih =>
    intro bs
    simp only [List.foldl_cons, List.filter_cons]
    rw [ih, addToBuckets_get]
    by_cases h : tagOf g mp = t
    · have hb : (tagOf g mp == t) = true := by simpa using h
      rw [if_pos h.symm, hb]
      simp
    · have hb : (tagOf g mp == t) = false := by simpa using h
      rw [if_neg (fun hh => h hh.symm), hb]
      simp

theorem buildBuckets_get (g : List (String × String)) (mps : List Mp) (t : String) :
    bucketGet (buildBuckets g mps) t = mps.filter (fun mp => tagOf g mp == t) := by
  simpa [bucketGet] using bucketFold_get g mps t []


/-! ### Claim C1 -/

/-- Claim C1, counterexample: on a store holding exactly the two rows of
the claim's example — `http://x.com/a` (newer) and `https://x.com/a`
(older) — the query returns the empty list, because both rows are removed
by the `https://mp.weixin.qq.com` allow-list before dedup; it is false
that exactly one (the newer) survives in the rendered feed. -/
theorem c1_counterexample :
    get_messages_for_mp c1XDb "p" 100 = Except.ok [] ∧
      ¬ ∃ m : Msg, get_messages_for_mp c1XDb "p" 100 = Except.ok [m] := by
  refine ⟨rfl, ?_⟩
  rintro ⟨m, hm⟩
  rw [show get_messages_for_mp c1XDb "p" 100 = Except.ok [] from rfl] at hm
  simp at hm

/-- Claim C1, amended: dedup is first-seen-wins on normalized URLs — no
two returned messages share a normalized url — and for two stored rows
whose URLs are under the allowed publisher domain and normalize to the
same url (`http://mp.weixin.qq.com/a`, newer, and
`https://mp.weixin.qq.com/a`, older), only one survives and it is the
newer one; the claim's own `x.com` example instead yields zero survivors
since both rows fail the allow-list. -/
theorem c1_amended :
    (∀ (db : List Row) (puid : String) (limit : Nat) (msgs : List Msg),
        get_messages_for_mp db puid limit = Except.ok msgs →
        (msgs.map msgNormUrl).Nodup) ∧
      get_messages_for_mp c1MpDb "p" 100 = Except.ok [c1NewerMsg] := by
  refine ⟨?_, rfl⟩
  intro db puid limit msgs h
  exact (collect_mem _ _ _ h).2

/-- Claim C1, witness for the amended theorem at the allowed-domain
example store. -/
theorem c1_witness : ([c1NewerMsg].map msgNormUrl).Nodup :=
  c1_amended.1 c1MpDb "p" 100 [c1NewerMsg] (by rfl)

/-! ### Claim C2 -/

/-- Claim C2, counterexample: a stored row with url
`http://mp.weixin.qq.com/s/x` passes the allow-list (its normalized form
is checked), but the message keeps the original `http://` url, and the
rendered RSS item's link and guid carry that original url, not the
https-normalized form. -/
theorem c2_counterexample :
    get_messages_for_mp c2Db "p" 100 = Except.ok [c2Msg] ∧
      (generate_rss_feed isoNone "Test Feed" "desc" [c2Msg] "F").items.map
          RssItem.link = ["http://mp.weixin.qq.com/s/x"] ∧
      (generate_rss_feed isoNone "Test Feed" "desc" [c2Msg] "F").items.map
          RssItem.guid = ["http://mp.weixin.qq.com/s/x"] ∧
      "http://mp.weixin.qq.com/s/x" ≠ "https://mp.weixin.qq.com/s/x" := by
  refine ⟨rfl, rfl, rfl, by decide⟩

/-- Claim C2, amended: the https-normalized url is used for the
allow-list check (and the dedup comparison, see the Nodup fact of C1),
but the RSS item's link and guid are the message's original stored url,
which may retain the `http://` scheme. -/
theorem c2_amended :
    ∀ (db : List Row) (puid : String) (limit : Nat) (msgs : List Msg),
      get_messages_for_mp db puid limit = Except.ok msgs →
      ∀ m ∈ msgs,
        strStarts (msgNormUrl m) "https://mp.weixin.qq.com" = true ∧
        ∀ isoParse : String → Option Int,
          (renderItem isoParse m).link = m.url.getD "" ∧
          (renderItem isoParse m).guid = m.url.getD "" := by
  intro db puid limit msgs h m hm
  obtain ⟨_, h2, _⟩ := (collect_mem _ _ _ h).1 m hm
  exact ⟨h2, fun _ => ⟨rfl, rfl⟩⟩

/-- Claim C2, witness for the amended theorem at the `http://` example
row. -/
theorem c2_witness :
    strStarts (msgNormUrl c2Msg) "https://mp.weixin.qq.com" = true ∧
      (renderItem isoNone c2Msg).link = c2Msg.url.getD "" ∧
      (renderItem isoNone c2Msg).guid = c2Msg.url.getD "" := by
  obtain ⟨h1, h2⟩ := c2_amended c2Db "p" 100 [c2Msg] (by rfl) c2Msg (by simp)
  exact ⟨h1, h2 isoNone⟩

/-! ### Claim C3 -/

/-- Claim C3: the query returns at most `limit` messages; the cap is
applied to the raw descending-time window before decoding, filtering and
dedup, so the returned count can be smaller than `limit` even when more
qualifying raw rows exist — with `limit = 2` on an account having 5
qualifying raw rows (all the same article), the result has 1 item. -/
theorem c3_theorem :
    (∀ (db : List Row) (puid : String) (limit : Nat) (msgs : List Msg),
        1 ≤ limit →
        get_messages_for_mp db puid limit = Except.ok msgs →
        msgs.length ≤ limit) ∧
      (linkRowsFor c3Db "p").length = 5 ∧
      get_messages_for_mp c3Db "p" 2 = Except.ok [c3TopMsg] ∧
      [c3TopMsg].length < 2 := by
  refine ⟨?_, rfl, rfl, by decide⟩
  intro db puid limit msgs _ h
  have h1 := collect_length _ _ _ h
  have h2 : (queryRows db puid limit).length ≤ limit := by
    rw [queryRows, List.length_take]
    exact min_le_left _ _
  exact le_trans h1 h2

/-- Claim C3, witness: the bound instantiated at the 5-row store with
`limit = 2`. -/
theorem c3_witness : [c3TopMsg].length ≤ 2 :=
  c3_theorem.1 c3Db "p" 2 [c3TopMsg] (by decide) (by rfl)

/-! ### Claim C4 -/

/-- Claim C4, counterexample: a row whose payload deserializes to an
object lacking the expected attributes but having no `.get` method (for
instance a pickled `None`) makes `parse_message_row` raise
(`data.get("attributes")` is outside the `try`), and the exception
aborts the whole query — the feed does fail on that one corrupt row. -/
theorem c4_counterexample :
    parse_message_row c4BadRow = Except.error () ∧
      get_messages_for_mp c4ErrDb "p" 100 = Except.error () :=
  ⟨rfl, rfl⟩

/-- Claim C4, amended: a row with an empty payload, a payload that fails
to deserialize, or a payload deserializing to a dict lacking (or holding
a falsy) `attributes` value yields no message and is silently skipped
while other rows are still processed; but a payload deserializing to a
non-dict raises and fails the whole query. -/
theorem c4_amended :
    (∀ row : Row, row.pickle_data = PickleField.empty →
        parse_message_row row = Except.ok none) ∧
      (∀ row : Row, row.pickle_data = PickleField.invalid →
        parse_message_row row = Except.ok none) ∧
      (∀ row : Row, row.pickle_data = PickleField.valid (PickleVal.dict none) →
        parse_message_row row = Except.ok none) ∧
      (∀ (row : Row) (a : LinkAttr),
        row.pickle_data = PickleField.valid (PickleVal.dict (some a)) →
        a.truthy = false →
        parse_message_row row = Except.ok none) ∧
      get_messages_for_mp c4MixDb "p" 100 = Except.ok [c4GoodMsg] := by
  refine ⟨?_, ?_, ?_, ?_, rfl⟩
  · intro row h
    simp [parse_message_row, h]
  · intro row h
    simp [parse_message_row, h]
  · intro row h
    simp [parse_message_row, h]
  · intro row a h ht
    simp [parse_message_row, h, ht]

/-- Claim C4, witness: the empty-payload case instantiated at a concrete
row. -/
theorem c4_witness : parse_message_row c4EmptyRow = Except.ok none :=
  c4_amended.1 c4EmptyRow (by rfl)


/-! ### Claim C5 -/

/-- Claim C5: a failed directory refresh leaves the process-wide account
cache unchanged — whenever `get_cached_mps` propagates an exception, the
cache after the call equals the cache before it — and a successful
forced reload replaces the cache with the freshly filtered list. -/
theorem c5_theorem :
    (∀ (cache : Option (List Mp)) (force_reload : Bool)
        (load : Except Unit (List Mp)) (c : Option (List Mp))
        (r : Except Unit (List Mp)),
        get_cached_mps cache force_reload load = (c, r) →
        r = Except.error () →
        c = cache) ∧
      (∀ (cache : Option (List Mp)) (load : Except Unit (List Mp))
        (c : Option (List Mp)) (f : List Mp),
        get_cached_mps cache true load = (c, Except.ok f) →
        c = some f) := by
  constructor
  · intro cache force_reload load c r hg he
    subst he
    simp only [get_cached_mps] at hg
    split at hg
    · split at hg
      · injection hg with h1 h2
        exact h1.symm
      · split at hg
        · injection hg with h1 h2
          exact h1.symm
        · injection hg with h1 h2
          exact Except.noConfusion h2
    · injection hg with h1 h2
      exact Except.noConfusion h2
  · intro cache load c f hg
    simp only [get_cached_mps, Bool.or_true, if_true] at hg
    split at hg
    · injection hg with h1 h2
      exact Except.noConfusion h2
    · split at hg
      · injection hg with h1 h2
        exact Except.noConfusion h2
      · injection hg with h1 h2
        injection h2 with h3
        rw [← h1, h3]

/-- Claim C5, witness: a forced reload whose loader raises leaves a
previously loaded one-account cache in place. -/
theorem c5_witness :
    (get_cached_mps (some [c5Account]) true (Except.error ())).1 =
      some [c5Account] :=
  c5_theorem.1 (some [c5Account]) true (Except.error ())
    (get_cached_mps (some [c5Account]) true (Except.error ())).1
    (get_cached_mps (some [c5Account]) true (Except.error ())).2
    rfl rfl

/-! ### Claim C6 -/

/-- Claim C6, counterexample: a message with no timestamp
(`pub_date` key missing) gets no `pubDate` element at all — the element
is omitted, not defaulted to the render time as the claim states. -/
theorem c6_counterexample :
    (renderItem isoNone c6NoDateMsg).pubDate = none ∧
      (none : Option PubDateVal) ≠ some PubDateVal.renderTime := by
  refine ⟨rfl, by simp⟩

/-- Claim C6, amended: each item's `pubDate` is computed from the
message's timestamp — an ISO string has every `"Z"` replaced by
`"+00:00"` (so a trailing `Z` is interpreted as UTC) before parsing,
falling back to the render time when the parse fails; a datetime value
is formatted from its own timestamp; any other truthy value yields the
render time; but a missing or falsy timestamp omits the `pubDate`
element entirely instead of defaulting to the render time. -/
theorem c6_amended :
    (∀ (isoParse : String → Option Int) (mp_name mp_signature : String)
        (messages : List Msg) (feed_url : String),
        (generate_rss_feed isoParse mp_name mp_signature messages feed_url).items =
          messages.map (renderItem isoParse)) ∧
      (∀ (isoParse : String → Option Int) (m : Msg),
        m.pub_date = none → (renderItem isoParse m).pubDate = none) ∧
      (∀ (isoParse : String → Option Int) (m : Msg) (v : PyTime),
        m.pub_date = some v → pyTimeTruthy v = false →
        (renderItem isoParse m).pubDate = none) ∧
      (∀ (isoParse : String → Option Int) (m : Msg) (s : String),
        m.pub_date = some (PyTime.pstr s) → s ≠ "" →
        (renderItem isoParse m).pubDate =
          some (match isoParse (pyReplace s "Z" "+00:00") with
            | some t => PubDateVal.fromTimestamp t
            | none => PubDateVal.renderTime)) ∧
      (∀ (isoParse : String → Option Int) (m : Msg) (t : Int),
        m.pub_date = some (PyTime.pdt t) →
        (renderItem isoParse m).pubDate =
          some (PubDateVal.fromTimestamp t)) ∧
      (∀ (isoParse : String → Option Int) (m : Msg) (n : Int),
        m.pub_date = some (PyTime.pint n) → n ≠ 0 →
        (renderItem isoParse m).pubDate = some PubDateVal.renderTime) ∧
      pyReplace "2024-01-01T00:00:00Z" "Z" "+00:00" =
        "2024-01-01T00:00:00+00:00" := by
  refine ⟨fun _ _ _ _ _ => rfl, ?_, ?_, ?_, ?_, ?_, rfl⟩
  · intro iso m h
    simp [renderItem, renderPubDate, h]
  · intro iso m v h ht
    simp [renderItem, renderPubDate, h, ht]
  · intro iso m s h hs
    have ht : pyTimeTruthy (PyTime.pstr s) = true := by
      simpa [pyTimeTruthy] using hs
    simp [renderItem, renderPubDate, h, ht]
  · intro iso m t h
    simp [renderItem, renderPubDate, h, pyTimeTruthy]
  · intro iso m n h hn
    have ht : pyTimeTruthy (PyTime.pint n) = true := by
      simpa [pyTimeTruthy] using hn
    simp [renderItem, renderPubDate, h, ht]

/-- Claim C6, witness: the spec's example timestamp
`2024-01-01T00:00:00Z` rendered through a parser defined at the
Z-normalized form yields the corresponding UTC timestamp. -/
theorem c6_witness :
    (renderItem isoJan2024 c6ZuluMsg).pubDate =
      some (PubDateVal.fromTimestamp 1704067200) := by
  have h := c6_amended.2.2.2.1 isoJan2024 c6ZuluMsg "2024-01-01T00:00:00Z"
    rfl (by decide)
  rw [h]
  rfl


/-! ### Claim C7 -/

/-- Claim C7, counterexample: a parsed message whose title is the empty
string renders an item whose title is the empty string, not
`"Untitled"` — `msg.get("title", "Untitled")` falls back only when the
key is absent, and the parser always sets the key. -/
theorem c7_counterexample :
    parse_message_row c7Row = Except.ok (some c7Msg) ∧
      c7Msg.title = some "" ∧
      (renderItem isoNone c7Msg).title = "" ∧
      ("" : String) ≠ "Untitled" := by
  refine ⟨rfl, rfl, rfl, by decide⟩

/-- Claim C7, amended: the item title equals the message title whenever
the `title` key is present (even when its value is empty); `"Untitled"`
appears only when the key is absent — a case the row parser never
produces, since it always sets the key. -/
theorem c7_amended :
    (∀ (isoParse : String → Option Int) (m : Msg) (t : String),
        m.title = some t → (renderItem isoParse m).title = t) ∧
      (∀ (isoParse : String → Option Int) (m : Msg),
        m.title = none → (renderItem isoParse m).title = "Untitled") ∧
      (∀ (row : Row) (m : Msg),
        parse_message_row row = Except.ok (some m) →
        m.title.isSome = true) := by
  refine ⟨?_, ?_, ?_⟩
  · intro iso m t h
    simp [renderItem, h]
  · intro iso m h
    simp [renderItem, h]
  · intro row m h
    simp only [parse_message_row] at h
    split at h
    · simp at h
    · simp at h
    · exact absurd h (by simp)
    · split at h
      · simp at h
      · split at h
        · simp only [Except.ok.injEq, Option.some.injEq] at h
          subst h
          rfl
        · simp at h

/-- Claim C7, witness for the amended theorem at the empty-title parsed
message. -/
theorem c7_witness : (renderItem isoNone c7Msg).title = "" :=
  c7_amended.1 isoNone c7Msg "" rfl

/-! ### Claim C8 -/

/-- Claim C8: every returned message has a non-empty url whose
normalized form starts with `https://mp.weixin.qq.com`, and a store
holding only an empty-url row and a `https://notmp.example.com/post`
row yields an empty result. -/
theorem c8_theorem :
    (∀ (db : List Row) (puid : String) (limit : Nat) (msgs : List Msg),
        get_messages_for_mp db puid limit = Except.ok msgs →
        ∀ m ∈ msgs,
          m.url.getD "" ≠ "" ∧
          strStarts (msgNormUrl m) "https://mp.weixin.qq.com" = true) ∧
      get_messages_for_mp c8Db "p" 100 = Except.ok [] := by
  refine ⟨?_, rfl⟩
  intro db puid limit msgs h m hm
  obtain ⟨h1, h2, _⟩ := (collect_mem _ _ _ h).1 m hm
  exact ⟨h1, h2⟩

/-- Claim C8, witness: the retained-message property at a store whose
query returns one message. -/
theorem c8_witness :
    c1NewerMsg.url.getD "" ≠ "" ∧
      strStarts (msgNormUrl c1NewerMsg) "https://mp.weixin.qq.com" = true :=
  c8_theorem.1 c1MpDb "p" 100 [c1NewerMsg] (by rfl) c1NewerMsg (by simp)

/-! ### Claim C10 -/

/-- Claim C10: every message the row parser produces has its `title`,
`description`, `url` and `image` keys present (never None — a missing
or None attribute is coalesced to the empty string) and its `pub_date`
is the stored row's `time` value passed through unchanged; on a
well-formed payload the fields are exactly the coalesced attribute
values. -/
theorem c10_theorem :
    (∀ (row : Row) (m : Msg),
        parse_message_row row = Except.ok (some m) →
        m.title.isSome = true ∧ m.description.isSome = true ∧
          m.url.isSome = true ∧ m.image.isSome = true ∧
          m.pub_date = some row.time) ∧
      (∀ (row : Row) (a : LinkAttr) (m : Msg),
        row.pickle_data = PickleField.valid (PickleVal.dict (some a)) →
        parse_message_row row = Except.ok (some m) →
        m = { title := some (a.title.getD "")
              description := some (a.description.getD "")
              url := some (a.url.getD "")
              image := some (a.image.getD "")
              pub_date := some row.time }) := by
  constructor
  · intro row m h
    simp only [parse_message_row] at h
    split at h
    · simp at h
    · simp at h
    · exact absurd h (by simp)
    · split at h
      · simp at h
      · split at h
        · simp only [Except.ok.injEq, Option.some.injEq] at h
          subst h
          exact ⟨rfl, rfl, rfl, rfl, rfl⟩
        · simp at h
  · intro row a m hp h
    simp only [parse_message_row, hp] at h
    split at h
    · simp only [Except.ok.injEq, Option.some.injEq] at h
      exact h.symm
    · simp at h

/-- Claim C10, witness: the field-presence property at a concrete
well-formed row. -/
theorem c10_witness :
    c10Msg.title.isSome = true ∧ c10Msg.description.isSome = true ∧
      c10Msg.url.isSome = true ∧ c10Msg.image.isSome = true ∧
      c10Msg.pub_date = some c10Row.time :=
  c10_theorem.1 c10Row c10Msg (by rfl)


/-! ### Claim C9 -/

/-- Claim C9: with a group map, accounts are bucketed into labelled
groups; the group keys are the labels in order of first encounter over
the input, except that `"All"` (accounts with no mapping) is moved to
the last position whenever present; each group holds exactly the
accounts bearing its label, in input order; without a (truthy) group
map the accounts render as a flat list in input order.  The spec's
example — `{"p1": "Tech"}` over three accounts, one mapped — produces
the groups `Tech` then `All`, for either input ordering. -/
theorem c9_theorem :
    (∀ (mps : List Mp) (base_url : String),
        generate_opml mps base_url none =
          OpmlBody.flat (mps.map (fun mp => addMpOutline mp base_url))) ∧
      (∀ (mps : List Mp) (base_url : String),
        generate_opml mps base_url (some []) =
          OpmlBody.flat (mps.map (fun mp => addMpOutline mp base_url))) ∧
      (∀ (mps : List Mp) (base_url : String) (q : String × String)
          (qs : List (String × String)) (l : List (String × List MpOutline)),
        generate_opml mps base_url (some (q :: qs)) = OpmlBody.grouped l →
        l.map Prod.fst =
            (firstEncounterLabels (mps.map (tagOf (q :: qs)))).filter
                (fun t => t != "All") ++
              (if "All" ∈ firstEncounterLabels (mps.map (tagOf (q :: qs)))
                then ["All"] else []) ∧
          ("All" ∈ l.map Prod.fst → (l.map Prod.fst).getLast? = some "All") ∧
          (∀ (t : String) (ms : List MpOutline), (t, ms) ∈ l →
            ms = (mps.filter (fun mp => tagOf (q :: qs) mp == t)).map
              (fun mp => addMpOutline mp base_url))) ∧
      generate_opml [c9Mp1, c9Mp2, c9Mp3] "http://b" (some c9Groups) =
        c9Expected ∧
      generate_opml [c9Mp2, c9Mp1, c9Mp3] "http://b" (some c9Groups) =
        c9Expected := by
  refine ⟨fun _ _ => rfl, fun _ _ => rfl, ?_, rfl, rfl⟩
  intro mps base_url q qs l hg
  simp only [generate_opml, OpmlBody.grouped.injEq] at hg
  subst hg
  rw [List.map_map]
  have hfst :
      (Prod.fst ∘ fun t =>
          (t, (bucketGet (buildBuckets (q :: qs) mps) t).map
            (fun mp => addMpOutline mp base_url))) = id := rfl
  rw [hfst, List.map_id]
  have hkeys := buildBuckets_keys (q :: qs) mps
  have hcont : ∀ (l' : List String) (a : String),
      l'.contains a = decide (a ∈ l') := by
    intro l' a
    simp [List.contains, List.elem_eq_mem]
  constructor
  · rw [hkeys, hcont]
    by_cases hA : "All" ∈ firstEncounterLabels (mps.map (tagOf (q :: qs)))
    · simp [hA]
    · simp [hA]
  constructor
  · intro hmem
    rw [hkeys, hcont]
    by_cases hA : "All" ∈ firstEncounterLabels (mps.map (tagOf (q :: qs)))
    · simp [hA]
    · rw [hkeys, hcont] at hmem
      simp [hA] at hmem
  · intro t ms hm
    obtain ⟨t', _, he⟩ := List.mem_map.mp hm
    simp only [Prod.mk.injEq] at he
    obtain ⟨rfl, he2⟩ := he
    rw [← he2, buildBuckets_get]

/-- Claim C9, witness: in the spec's example the `All` group is rendered
last. -/
theorem c9_witness :
    (([("Tech", [addMpOutline c9Mp1 "http://b"]),
        ("All", [addMpOutline c9Mp2 "http://b",
                 addMpOutline c9Mp3 "http://b"])] :
      List (String × List MpOutline)).map Prod.fst).getLast? =
      some "All" := by
  have h := c9_theorem.2.2.1 [c9Mp1, c9Mp2, c9Mp3] "http://b" ("p1", "Tech") []
    [("Tech", [addMpOutline c9Mp1 "http://b"]),
     ("All", [addMpOutline c9Mp2 "http://b", addMpOutline c9Mp3 "http://b"])]
    (by rfl)
  exact h.2.1 (by simp)

end MpRss
